import Mathlib

/-!
Verification of the real-time market-surveillance subsystem of
`lukhed_markets/polymarket.py`: the whale-trade stream filter
(`monitor_market_for_whales` and its inner `whale_filter_callback`),
the subscription operations of `MarketWebSocket`, and the position
poller (`monitor_user_positions` and its inner `poll_loop`).

Numeric trade/position fields (`size`, `price`) are modelled as `ℚ`.
Positions carry the three fields the monitoring code reads
(`pos.get('market')`, `pos.get('outcome')`, `pos.get('size')`).
-/

/-- One user position, with the fields read by `poll_loop`. -/
structure Position where
  market : String
  outcome : String
  size : ℚ
deriving DecidableEq, Repr

/-- The composite key used by `poll_loop`:
`key = f"{pos.get('market')}_{pos.get('outcome')}"`. -/
def position_key (p : Position) : String :=
  p.market ++ "_" ++ p.outcome

/-- A position snapshot: the Python dict `current_map` / `last_positions`,
modelled as an insertion-ordered association list with unique keys. -/
abbrev Snapshot := List (String × Position)

/-- Dictionary lookup `m[k]` / `k in m` on the association-list model. -/
def lookupKey : Snapshot → String → Option Position
  | [], _ => none
  | (k2, p) :: rest, k => if k2 = k then some p else lookupKey rest k

/-- Dictionary assignment `m[k] = p`: replaces the entry for `k` if present,
otherwise appends a new entry (Python dicts preserve insertion order). -/
def insertKey : Snapshot → String → Position → Snapshot
  | [], k, p => [(k, p)]
  | (k2, p2) :: rest, k, p =>
    if k2 = k then (k, p) :: rest else (k2, p2) :: insertKey rest k p

/-- The snapshot-building loop of `poll_loop`:
`for pos in current_positions: current_map[key] = pos`. -/
def build_position_map (positions : List Position) : Snapshot :=
  positions.foldl (fun m pos => insertKey m (position_key pos) pos) []

/-- One entry of `changes['changed']` as built by `poll_loop`. -/
structure ChangedEntry where
  market : String
  outcome : String
  old_size : ℚ
  new_size : ℚ
  position : Position
deriving DecidableEq, Repr

/-- The `changes` dict built by `poll_loop`. -/
structure Changes where
  new : List Position
  changed : List ChangedEntry
  closed : List Position
deriving DecidableEq, Repr

/-- The change-detection block of `poll_loop` (the SnapshotDiffer):
iterating `current_map.items()`, a key absent from `last_positions` goes to
`new`; a key present in both with a different `size` goes to `changed`;
iterating `last_positions.items()`, a key absent from `current_map` goes to
`closed`. Size comparison is exact `!=`. -/
def detect_changes (last_positions current_map : Snapshot) : Changes :=
  { new := (current_map.filter (fun kp => (lookupKey last_positions kp.1).isNone)).map Prod.snd
  , changed := current_map.filterMap (fun kp =>
      match lookupKey last_positions kp.1 with
      | none => none
      | some old =>
        if kp.2.size ≠ old.size then
          some { market := kp.2.market, outcome := kp.2.outcome,
                 old_size := old.size, new_size := kp.2.size, position := kp.2 }
        else none)
  , closed := (last_positions.filter (fun kp => (lookupKey current_map kp.1).isNone)).map Prod.snd }

/-- Python `any(changes.values())`: true iff any of the three lists is
non-empty. -/
def changes_any (c : Changes) : Bool :=
  !(c.new.isEmpty && c.changed.isEmpty && c.closed.isEmpty)

/-- The observable outcome of one iteration of `poll_loop`: the retained
`last_positions` after the iteration, and `some changes` exactly when the
consumer callback was invoked with that diff this cycle. -/
structure PollResult where
  state : Snapshot
  invoked : Option Changes
deriving DecidableEq, Repr

/-- One cycle's environment for `poll_loop`: either the fetch
(`get_current_positions_for_user`) raises, or it returns a list of
positions, in which case `callbackRaises` tells whether the consumer
callback raises if it gets invoked this cycle. -/
inductive CycleInput where
  | fetchFail
  | fetchOk (positions : List Position) (callbackRaises : Bool)
deriving DecidableEq, Repr

/-- One iteration of the `while True` body of `poll_loop`, with a consumer
callback configured. A raised exception anywhere in the `try` block jumps
to the `except` handler, which only sleeps; so a failed fetch leaves
`last_positions` untouched, and a raising callback skips the trailing
`last_positions = current_map` assignment. `changes` is computed only when
`if last_positions:` — i.e. only when the retained dict is non-empty. -/
def poll_loop_step (last_positions : Snapshot) : CycleInput → PollResult
  | .fetchFail => { state := last_positions, invoked := none }
  | .fetchOk positions callbackRaises =>
    let current_map := build_position_map positions
    if last_positions.isEmpty then
      { state := current_map, invoked := none }
    else
      let changes := detect_changes last_positions current_map
      if changes_any changes then
        if callbackRaises then { state := last_positions, invoked := some changes }
        else { state := current_map, invoked := some changes }
      else
        { state := current_map, invoked := none }

/-- Several iterations of `poll_loop`, starting from `last_positions`
(initially `{}` in the source), returning the final retained snapshot and
the per-cycle callback-invocation log. -/
def poll_loop_run (last_positions : Snapshot) :
    List CycleInput → Snapshot × List (Option Changes)
  | [] => (last_positions, [])
  | input :: rest =>
    let r := poll_loop_step last_positions input
    let rr := poll_loop_run r.state rest
    (rr.1, r.invoked :: rr.2)

/-- An inbound market-channel message, with the fields read by
`whale_filter_callback` (`event_type`, `status`, `size`, `price`). -/
structure TradeMsg where
  event_type : String
  status : String
  size : ℚ
  price : ℚ
deriving DecidableEq, Repr

/-- `whale_filter_callback` of `monitor_market_for_whales`: returns `true`
iff the message is forwarded to the consumer callback. The source checks
`event_type == 'trade' and status == 'MATCHED'`, computes
`trade_value = size * price`, and fires iff `trade_value >= min_trade_value`
when `min_trade_value` is not `None`, else iff `size >= min_trade_size`. -/
def whale_filter_callback (min_trade_size : ℚ) (min_trade_value : Option ℚ)
    (data : TradeMsg) : Bool :=
  if data.event_type = "trade" ∧ data.status = "MATCHED" then
    let size := data.size
    let price := data.price
    let trade_value := size * price
    let is_whale : Bool :=
      match min_trade_value with
      | some v => trade_value ≥ v
      | none => size ≥ min_trade_size
    is_whale
  else
    false

/-- A control frame sent by `MarketWebSocket` over its websocket:
`json.dumps({"assets_ids": ..., "operation": ...})`. -/
structure Frame where
  assets_ids : List String
  operation : String
deriving DecidableEq, Repr

/-- The state of a `MarketWebSocket`: its `asset_ids` attribute (the list
passed at construction) and the frames sent over the underlying socket. -/
structure MarketWS where
  asset_ids : List String
  sent : List Frame
deriving DecidableEq, Repr

/-- `MarketWebSocket.subscribe_to_assets`: sends one
`{"assets_ids": new_asset_ids, "operation": "subscribe"}` frame.
The source does not touch `self.asset_ids`. -/
def subscribe_to_assets (ws : MarketWS) (new_asset_ids : List String) : MarketWS :=
  { ws with sent := ws.sent ++ [{ assets_ids := new_asset_ids, operation := "subscribe" }] }

/-- `MarketWebSocket.unsubscribe_from_assets`: sends one
`{"assets_ids": asset_ids_to_remove, "operation": "unsubscribe"}` frame.
The source does not touch `self.asset_ids`. -/
def unsubscribe_from_assets (ws : MarketWS) (asset_ids_to_remove : List String) : MarketWS :=
  { ws with sent := ws.sent ++ [{ assets_ids := asset_ids_to_remove, operation := "unsubscribe" }] }

/-- Outcome of a call to `monitor_market_for_whales` before any message
is handled: either it raises (no websocket constructed, no handshake or
subscribe frame sent), or it reaches `subscribe_to_markets` and opens a
connection over the listed asset ids. -/
inductive StartResult where
  | valueErrorNoArgs
  | resolutionError (markets : List String)
  | connectionOpened (asset_ids : List String)
deriving DecidableEq, Repr

/-- The argument-checking and resolution prologue of
`monitor_market_for_whales`. `resolve` abstracts the per-identifier lookup
(`get_event_by_slug`, falling back to a `condition_id` scan), returning the
`token_id`s appended for one market identifier; the loop accumulates them
in order. If `markets` is given, it is resolved (overriding any
`asset_ids` argument) and an empty accumulated list raises `ValueError`
before `subscribe_to_markets` is reached. -/
def monitor_market_for_whales (resolve : String → List String) :
    Option (List String) → Option (List String) → StartResult
  | none, none => .valueErrorNoArgs
  | some markets, _ =>
    let asset_ids := markets.flatMap resolve
    if asset_ids.isEmpty then .resolutionError markets
    else .connectionOpened asset_ids
  | none, some asset_ids => .connectionOpened asset_ids

/-- Modelled from the spec: the source's start operations return a raw
daemon `threading.Thread` (`monitor_user_positions`) or a `MarketWebSocket`
(`monitor_market_for_whales`) and define no `stop` operation; §5 and §6 of
the spec require each handle to support a tear-down `stop(handle)` that
halts further callback invocations and is safe to repeat. A handle is
modelled by its stopped flag. -/
structure MonitorHandle where
  stopped : Bool
deriving DecidableEq, Repr

/-- Modelled from the spec: `stop(handle)` — tear-down that marks the
handle stopped; it is a total operation (never raises). -/
def stopHandle (_h : MonitorHandle) : MonitorHandle :=
  { stopped := true }

/-- Modelled from the spec: event delivery through a handle — an event the
underlying filter would forward reaches the consumer callback only while
the handle is not stopped. -/
def handleDeliver (h : MonitorHandle) (fires : Bool) : Bool :=
  !h.stopped && fires

/-- A snapshot is a dict: its keys are pairwise distinct. -/
def nodupKeys (m : Snapshot) : Prop :=
  (m.map Prod.fst).Nodup

/-- Every entry of a snapshot built by `poll_loop` is stored under the key
string derived from its own position. -/
def keyConsistent (m : Snapshot) : Prop :=
  ∀ kp ∈ m, kp.1 = position_key kp.2

theorem lookupKey_insertKey (m : Snapshot) (k : String) (p : Position) (a : String) :
    lookupKey (insertKey m k p) a = if k = a then some p else lookupKey m a := by
  induction m with
  | nil => simp [insertKey, lookupKey]
  | cons hd tl ih =>
    obtain ⟨k2, p2⟩ := hd
    by_cases hk : k2 = k
    · subst hk
      simp only [insertKey, if_pos rfl, lookupKey]
      by_cases ha : k2 = a
      · subst ha; simp
      · simp [ha, lookupKey]
    · simp only [insertKey, if_neg hk, lookupKey]
      by_cases ha : k2 = a
      · subst ha
        have : ¬ k = k2 := fun h => hk h.symm
        simp [this]
      · simp [ha, ih]

theorem mem_insertKey (m : Snapshot) (k : String) (p : Position) (kp : String × Position) :
    kp ∈ insertKey m k p → kp ∈ m ∨ kp = (k, p) := by
  induction m with
  | nil => intro h; simp [insertKey] at h; right; exact h
  | cons hd tl ih =>
    obtain ⟨k2, p2⟩ := hd
    by_cases hk : k2 = k
    · subst hk
      simp only [insertKey, if_pos rfl]
      intro h
      rcases List.mem_cons.mp h with h | h
      · right; exact h
      · left; exact List.mem_cons_of_mem _ h
    · simp only [insertKey, if_neg hk]
      intro h
      rcases List.mem_cons.mp h with h | h
      · left; exact h ▸ List.mem_cons_self _ _
      · rcases ih h with h2 | h2
        · left; exact List.mem_cons_of_mem _ h2
        · right; exact h2

theorem mem_keys_insertKey (m : Snapshot) (k : String) (p : Position) (a : String) :
    a ∈ (insertKey m k p).map Prod.fst ↔ a ∈ m.map Prod.fst ∨ a = k := by
  induction m with
  | nil => simp [insertKey]
  | cons hd tl ih =>
    obtain ⟨k2, p2⟩ := hd
    by_cases hk : k2 = k
    · subst hk
      simp [insertKey]
      tauto
    · simp only [insertKey, if_neg hk]
      simp only [List.map_cons, List.mem_cons] at ih ⊢
      rw [ih]
      tauto

theorem nodupKeys_insertKey (m : Snapshot) (k : String) (p : Position)
    (h : nodupKeys m) : nodupKeys (insertKey m k p) := by
  induction m with
  | nil => simp [nodupKeys, insertKey]
  | cons hd tl ih =>
    obtain ⟨k2, p2⟩ := hd
    simp only [nodupKeys, List.map_cons, List.nodup_cons] at h
    by_cases hk : k2 = k
    · subst hk
      simp only [nodupKeys, insertKey]
      simp only [if_true, eq_self_iff_true, List.map_cons, List.nodup_cons]
      exact h
    · simp only [nodupKeys, insertKey, if_neg hk, List.map_cons, List.nodup_cons]
      refine ⟨?_, ih h.2⟩
      intro hmem
      rcases (mem_keys_insertKey tl k p k2).mp hmem with h2 | h2
      · exact h.1 h2
      · exact hk h2

theorem nodupKeys_build_position_map (ps : List Position) :
    nodupKeys (build_position_map ps) := by
  suffices h : ∀ acc : Snapshot, nodupKeys acc →
      nodupKeys (ps.foldl (fun m pos => insertKey m (position_key pos) pos) acc) by
    exact h [] (by simp [nodupKeys])
  induction ps with
  | nil => intro acc hacc; exact hacc
  | cons hd tl ih =>
    intro acc hacc
    exact ih _ (nodupKeys_insertKey acc (position_key hd) hd hacc)

theorem keyConsistent_build_position_map (ps : List Position) :
    keyConsistent (build_position_map ps) := by
  suffices h : ∀ acc : Snapshot, keyConsistent acc →
      keyConsistent (ps.foldl (fun m pos => insertKey m (position_key pos) pos) acc) by
    exact h [] (by intro kp hkp; simp at hkp)
  induction ps with
  | nil => intro acc hacc; exact hacc
  | cons hd tl ih =>
    intro acc hacc
    refine ih _ ?_
    intro kp hkp
    rcases mem_insertKey acc (position_key hd) hd kp hkp with h2 | h2
    · exact hacc kp h2
    · subst h2; rfl

theorem mem_of_lookupKey_eq_some (m : Snapshot) (k : String) (p : Position)
    (h : lookupKey m k = some p) : (k, p) ∈ m := by
  induction m with
  | nil => simp [lookupKey] at h
  | cons hd tl ih =>
    obtain ⟨k2, p2⟩ := hd
    simp only [lookupKey] at h
    by_cases hk : k2 = k
    · subst hk
      simp only [if_true, eq_self_iff_true, Option.some.injEq] at h
      subst h
      exact List.mem_cons_self _ _
    · rw [if_neg hk] at h
      exact List.mem_cons_of_mem _ (ih h)

theorem lookupKey_eq_some_of_mem (m : Snapshot) (k : String) (p : Position)
    (hnd : nodupKeys m) (h : (k, p) ∈ m) : lookupKey m k = some p := by
  induction m with
  | nil => simp at h
  | cons hd tl ih =>
    obtain ⟨k2, p2⟩ := hd
    simp only [nodupKeys, List.map_cons, List.nodup_cons] at hnd
    rcases List.mem_cons.mp h with h2 | h2
    · rw [Prod.ext_iff] at h2
      obtain ⟨h2a, h2b⟩ := h2
      simp only [lookupKey]
      rw [if_pos h2a.symm]
      exact congrArg some h2b.symm
    · have hk2 : k2 ≠ k := by
        intro he
        subst he
        exact hnd.1 (List.mem_map.mpr ⟨(k2, p), h2, rfl⟩)
      simp only [lookupKey, if_neg hk2]
      exact ih hnd.2 h2

theorem lookupKey_eq_none_iff (m : Snapshot) (k : String) :
    lookupKey m k = none ↔ k ∉ m.map Prod.fst := by
  induction m with
  | nil => simp [lookupKey]
  | cons hd tl ih =>
    obtain ⟨k2, p2⟩ := hd
    simp only [lookupKey, List.map_cons, List.mem_cons]
    by_cases hk : k2 = k
    · subst hk; simp
    · rw [if_neg hk, ih]
      constructor
      · intro h hc
        rcases hc with hc | hc
        · exact hk hc.symm
        · exact h hc
      · intro h hc
        exact h (Or.inr hc)

theorem mem_detect_changes_new (last_positions current_map : Snapshot) (p : Position) :
    p ∈ (detect_changes last_positions current_map).new ↔
      ∃ kp, kp ∈ current_map ∧ lookupKey last_positions kp.1 = none ∧ kp.2 = p := by
  simp only [detect_changes, List.mem_map, List.mem_filter, Option.isNone_iff_eq_none]
  constructor
  · rintro ⟨kp, ⟨hmem, hnone⟩, hsnd⟩
    exact ⟨kp, hmem, hnone, hsnd⟩
  · rintro ⟨kp, hmem, hnone, hsnd⟩
    exact ⟨kp, ⟨hmem, hnone⟩, hsnd⟩

theorem mem_detect_changes_closed (last_positions current_map : Snapshot) (p : Position) :
    p ∈ (detect_changes last_positions current_map).closed ↔
      ∃ kp, kp ∈ last_positions ∧ lookupKey current_map kp.1 = none ∧ kp.2 = p := by
  simp only [detect_changes, List.mem_map, List.mem_filter, Option.isNone_iff_eq_none]
  constructor
  · rintro ⟨kp, ⟨hmem, hnone⟩, hsnd⟩
    exact ⟨kp, hmem, hnone, hsnd⟩
  · rintro ⟨kp, hmem, hnone, hsnd⟩
    exact ⟨kp, ⟨hmem, hnone⟩, hsnd⟩

theorem mem_detect_changes_changed (last_positions current_map : Snapshot) (e : ChangedEntry) :
    e ∈ (detect_changes last_positions current_map).changed ↔
      ∃ kp, kp ∈ current_map ∧ ∃ old,
        lookupKey last_positions kp.1 = some old ∧ kp.2.size ≠ old.size ∧
        e = { market := kp.2.market, outcome := kp.2.outcome,
              old_size := old.size, new_size := kp.2.size, position := kp.2 } := by
  simp only [detect_changes, List.mem_filterMap]
  constructor
  · rintro ⟨kp, hmem, hf⟩
    refine ⟨kp, hmem, ?_⟩
    split at hf
    · exact absurd hf (by simp)
    · next old hlook =>
      split at hf
      · next hsize =>
        simp only [Option.some.injEq] at hf
        exact ⟨old, hlook, hsize, hf.symm⟩
      · exact absurd hf (by simp)
  · rintro ⟨kp, hmem, old, hlook, hsize, he⟩
    refine ⟨kp, hmem, ?_⟩
    rw [hlook]
    simp only [if_pos hsize, he]

theorem entry_eq_of_nodupKeys (m : Snapshot) (hnd : nodupKeys m)
    (e1 e2 : String × Position) (h1 : e1 ∈ m) (h2 : e2 ∈ m) (hk : e1.1 = e2.1) :
    e1 = e2 := by
  have l1 : lookupKey m e1.1 = some e1.2 :=
    lookupKey_eq_some_of_mem m e1.1 e1.2 hnd (by rwa [Prod.mk.eta])
  have l2 : lookupKey m e2.1 = some e2.2 :=
    lookupKey_eq_some_of_mem m e2.1 e2.2 hnd (by rwa [Prod.mk.eta])
  rw [hk, l2] at l1
  exact Prod.ext_iff.mpr ⟨hk, (Option.some.inj l1).symm⟩

theorem key_eq_of_lookup (m : Snapshot) (hkc : keyConsistent m) (k : String) (p : Position)
    (h : lookupKey m k = some p) : k = position_key p :=
  hkc (k, p) (mem_of_lookupKey_eq_some m k p h)

/-- Claim C1: for every pair of position snapshots (dict-shaped, as built by
the poller: unique, position-derived keys) with the previous snapshot
non-empty, the computed diff satisfies: `new` contains exactly the positions
whose key is in the current snapshot but not the previous, `closed` exactly
those whose key is in the previous but not the current, `changed` exactly
the keys present in both whose sizes differ under exact inequality (both
directions: every such key contributes its entry, and every entry of
`changed` arises from a key present in both snapshots with differing sizes,
with the correctly filled fields), and a key present in both with equal
size appears in none of the three lists. -/
theorem C1_diff_partition (last_positions current_map : Snapshot)
    (_hne : last_positions ≠ [])
    (hnd1 : nodupKeys last_positions) (hkc1 : keyConsistent last_positions)
    (hnd2 : nodupKeys current_map) (hkc2 : keyConsistent current_map) :
    (∀ p : Position,
        p ∈ (detect_changes last_positions current_map).new ↔
          lookupKey current_map (position_key p) = some p ∧
          lookupKey last_positions (position_key p) = none) ∧
    (∀ p : Position,
        p ∈ (detect_changes last_positions current_map).closed ↔
          lookupKey last_positions (position_key p) = some p ∧
          lookupKey current_map (position_key p) = none) ∧
    (∀ (k : String) (p old : Position),
        lookupKey current_map k = some p →
        lookupKey last_positions k = some old →
        ((∃ e ∈ (detect_changes last_positions current_map).changed,
            e.position = p ∧ e.market = p.market ∧ e.outcome = p.outcome ∧
            e.old_size = old.size ∧ e.new_size = p.size) ↔ p.size ≠ old.size)) ∧
    (∀ e : ChangedEntry,
        e ∈ (detect_changes last_positions current_map).changed ↔
          ∃ p old : Position,
            lookupKey current_map (position_key p) = some p ∧
            lookupKey last_positions (position_key p) = some old ∧
            p.size ≠ old.size ∧
            e = { market := p.market, outcome := p.outcome,
                  old_size := old.size, new_size := p.size, position := p }) ∧
    (∀ (k : String) (p old : Position),
        lookupKey current_map k = some p →
        lookupKey last_positions k = some old →
        p.size = old.size →
          p ∉ (detect_changes last_positions current_map).new ∧
          p ∉ (detect_changes last_positions current_map).closed ∧
          ∀ e ∈ (detect_changes last_positions current_map).changed, e.position ≠ p) := by
  refine ⟨?_, ?_, ?_, ?_, ?_⟩
  · intro p
    rw [mem_detect_changes_new]
    constructor
    · rintro ⟨kp, hmem, hnone, hsnd⟩
      have hk : kp.1 = position_key p := hsnd ▸ hkc2 kp hmem
      have hmem2 : (position_key p, p) ∈ current_map := by
        have : kp = (position_key p, p) := Prod.ext_iff.mpr ⟨hk, hsnd⟩
        rwa [this] at hmem
      exact ⟨lookupKey_eq_some_of_mem _ _ _ hnd2 hmem2, hk ▸ hnone⟩
    · rintro ⟨hsome, hnone⟩
      exact ⟨(position_key p, p), mem_of_lookupKey_eq_some _ _ _ hsome, hnone, rfl⟩
  · intro p
    rw [mem_detect_changes_closed]
    constructor
    · rintro ⟨kp, hmem, hnone, hsnd⟩
      have hk : kp.1 = position_key p := hsnd ▸ hkc1 kp hmem
      have hmem2 : (position_key p, p) ∈ last_positions := by
        have : kp = (position_key p, p) := Prod.ext_iff.mpr ⟨hk, hsnd⟩
        rwa [this] at hmem
      exact ⟨lookupKey_eq_some_of_mem _ _ _ hnd1 hmem2, hk ▸ hnone⟩
    · rintro ⟨hsome, hnone⟩
      exact ⟨(position_key p, p), mem_of_lookupKey_eq_some _ _ _ hsome, hnone, rfl⟩
  · intro k p old hcur hlast
    have hkp : k = position_key p := key_eq_of_lookup _ hkc2 _ _ hcur
    constructor
    · rintro ⟨e, hemem, hepos, _, _, _, _⟩
      rcases (mem_detect_changes_changed _ _ e).mp hemem with
        ⟨kp, hmem, old0, hlook0, hsize0, he⟩
      have hkp2 : kp.2 = p := by rw [he] at hepos; exact hepos
      have hk1 : kp.1 = k := by
        rw [hkp]
        exact hkp2 ▸ hkc2 kp hmem
      rw [hk1, hlast] at hlook0
      have hold : old0 = old := Option.some.inj hlook0.symm
      rw [hkp2, hold] at hsize0
      exact hsize0
    · intro hsize
      refine ⟨{ market := p.market, outcome := p.outcome,
                old_size := old.size, new_size := p.size, position := p }, ?_, rfl, rfl, rfl, rfl, rfl⟩
      exact (mem_detect_changes_changed _ _ _).mpr
        ⟨(k, p), mem_of_lookupKey_eq_some _ _ _ hcur, old, hlast, hsize, rfl⟩
  · intro e
    constructor
    · intro hemem
      rcases (mem_detect_changes_changed _ _ e).mp hemem with
        ⟨kp, hmem, old0, hlook0, hsize0, he⟩
      have hk : kp.1 = position_key kp.2 := hkc2 kp hmem
      refine ⟨kp.2, old0, ?_, ?_, hsize0, he⟩
      · have hmem2 : (position_key kp.2, kp.2) ∈ current_map := by
          rw [← hk, Prod.mk.eta]; exact hmem
        exact lookupKey_eq_some_of_mem _ _ _ hnd2 hmem2
      · rw [← hk]; exact hlook0
    · rintro ⟨p, old, hcur, hlast, hsize, he⟩
      exact (mem_detect_changes_changed _ _ _).mpr
        ⟨(position_key p, p), mem_of_lookupKey_eq_some _ _ _ hcur, old, hlast, hsize, he⟩
  · intro k p old hcur hlast heq
    have hkp : k = position_key p := key_eq_of_lookup _ hkc2 _ _ hcur
    refine ⟨?_, ?_, ?_⟩
    · intro hmem
      rcases (mem_detect_changes_new _ _ p).mp hmem with ⟨kp, hmem2, hnone, hsnd⟩
      have hk1 : kp.1 = k := by rw [hkp]; exact hsnd ▸ hkc2 kp hmem2
      rw [hk1, hlast] at hnone
      exact Option.noConfusion hnone
    · intro hmem
      rcases (mem_detect_changes_closed _ _ p).mp hmem with ⟨kp, hmem2, hnone, hsnd⟩
      have hk1 : kp.1 = k := by rw [hkp]; exact hsnd ▸ hkc1 kp hmem2
      rw [hk1, hcur] at hnone
      exact Option.noConfusion hnone
    · intro e hemem hepos
      rcases (mem_detect_changes_changed _ _ e).mp hemem with
        ⟨kp, hmem2, old0, hlook0, hsize0, he⟩
      have hkp2 : kp.2 = p := by rw [he] at hepos; exact hepos
      have hk1 : kp.1 = k := by rw [hkp]; exact hkp2 ▸ hkc2 kp hmem2
      rw [hk1, hlast] at hlook0
      have hold : old0 = old := Option.some.inj hlook0.symm
      rw [hkp2, hold] at hsize0
      exact hsize0 heq

/-- Witness for C1 at a concrete pair of snapshots: previous holds one
position of size 5, current holds the same key with size 7. -/
theorem C1_diff_partition_witness :
    build_position_map [(⟨"m1", "Yes", 5⟩ : Position)] ≠ [] ∧
    ((∀ p : Position,
        p ∈ (detect_changes (build_position_map [(⟨"m1", "Yes", 5⟩ : Position)])
              (build_position_map [(⟨"m1", "Yes", 7⟩ : Position)])).new ↔
          lookupKey (build_position_map [(⟨"m1", "Yes", 7⟩ : Position)]) (position_key p) = some p ∧
          lookupKey (build_position_map [(⟨"m1", "Yes", 5⟩ : Position)]) (position_key p) = none) ∧
    (∀ p : Position,
        p ∈ (detect_changes (build_position_map [(⟨"m1", "Yes", 5⟩ : Position)])
              (build_position_map [(⟨"m1", "Yes", 7⟩ : Position)])).closed ↔
          lookupKey (build_position_map [(⟨"m1", "Yes", 5⟩ : Position)]) (position_key p) = some p ∧
          lookupKey (build_position_map [(⟨"m1", "Yes", 7⟩ : Position)]) (position_key p) = none) ∧
    (∀ (k : String) (p old : Position),
        lookupKey (build_position_map [(⟨"m1", "Yes", 7⟩ : Position)]) k = some p →
        lookupKey (build_position_map [(⟨"m1", "Yes", 5⟩ : Position)]) k = some old →
        ((∃ e ∈ (detect_changes (build_position_map [(⟨"m1", "Yes", 5⟩ : Position)])
              (build_position_map [(⟨"m1", "Yes", 7⟩ : Position)])).changed,
            e.position = p ∧ e.market = p.market ∧ e.outcome = p.outcome ∧
            e.old_size = old.size ∧ e.new_size = p.size) ↔ p.size ≠ old.size)) ∧
    (∀ e : ChangedEntry,
        e ∈ (detect_changes (build_position_map [(⟨"m1", "Yes", 5⟩ : Position)])
              (build_position_map [(⟨"m1", "Yes", 7⟩ : Position)])).changed ↔
          ∃ p old : Position,
            lookupKey (build_position_map [(⟨"m1", "Yes", 7⟩ : Position)])
              (position_key p) = some p ∧
            lookupKey (build_position_map [(⟨"m1", "Yes", 5⟩ : Position)])
              (position_key p) = some old ∧
            p.size ≠ old.size ∧
            e = { market := p.market, outcome := p.outcome,
                  old_size := old.size, new_size := p.size, position := p }) ∧
    (∀ (k : String) (p old : Position),
        lookupKey (build_position_map [(⟨"m1", "Yes", 7⟩ : Position)]) k = some p →
        lookupKey (build_position_map [(⟨"m1", "Yes", 5⟩ : Position)]) k = some old →
        p.size = old.size →
          p ∉ (detect_changes (build_position_map [(⟨"m1", "Yes", 5⟩ : Position)])
                (build_position_map [(⟨"m1", "Yes", 7⟩ : Position)])).new ∧
          p ∉ (detect_changes (build_position_map [(⟨"m1", "Yes", 5⟩ : Position)])
                (build_position_map [(⟨"m1", "Yes", 7⟩ : Position)])).closed ∧
          ∀ e ∈ (detect_changes (build_position_map [(⟨"m1", "Yes", 5⟩ : Position)])
                (build_position_map [(⟨"m1", "Yes", 7⟩ : Position)])).changed, e.position ≠ p)) :=
  ⟨by decide,
   C1_diff_partition (build_position_map [(⟨"m1", "Yes", 5⟩ : Position)])
     (build_position_map [(⟨"m1", "Yes", 7⟩ : Position)])
     (by decide) (by unfold nodupKeys; decide) (by unfold keyConsistent; decide)
     (by unfold nodupKeys; decide) (by unfold keyConsistent; decide)⟩

/-- Claim C7: in every snapshot built by the position poller, keys are
pairwise distinct, and distinct entries never carry the same
`(marketRef, outcome)` pair — each pair maps to at most one position. -/
theorem C7_snapshot_key_uniqueness (ps : List Position) :
    nodupKeys (build_position_map ps) ∧
    ∀ e1 ∈ build_position_map ps, ∀ e2 ∈ build_position_map ps,
      e1.2.market = e2.2.market → e1.2.outcome = e2.2.outcome → e1 = e2 := by
  refine ⟨nodupKeys_build_position_map ps, ?_⟩
  intro e1 h1 e2 h2 hm ho
  have hkc := keyConsistent_build_position_map ps
  have hk : e1.1 = e2.1 := by
    rw [hkc e1 h1, hkc e2 h2]
    simp [position_key, hm, ho]
  exact entry_eq_of_nodupKeys _ (nodupKeys_build_position_map ps) e1 e2 h1 h2 hk

/-- Witness for C7 on a concrete snapshot of two positions. -/
theorem C7_snapshot_key_uniqueness_witness :
    nodupKeys (build_position_map [(⟨"m1", "Yes", 5⟩ : Position), ⟨"m2", "No", 3⟩]) ∧
    ("m1_Yes", (⟨"m1", "Yes", 5⟩ : Position)) = ("m1_Yes", ⟨"m1", "Yes", 5⟩) :=
  ⟨(C7_snapshot_key_uniqueness [⟨"m1", "Yes", 5⟩, ⟨"m2", "No", 3⟩]).1,
   (C7_snapshot_key_uniqueness [⟨"m1", "Yes", 5⟩, ⟨"m2", "No", 3⟩]).2
     ("m1_Yes", ⟨"m1", "Yes", 5⟩) (by decide) ("m1_Yes", ⟨"m1", "Yes", 5⟩) (by decide) rfl rfl⟩

/-- Counterexample for C2: after a first successful poll that returned no
positions, the retained snapshot is the empty dict; on the next cycle a
non-empty fetch produces NO callback invocation (`invoked = none`), because
`if last_positions:` is false for any empty dict — contradicting the claim
that a non-initial empty previous snapshot marks every current key as
`new` and fires the callback. -/
theorem C2_counterexample :
    (poll_loop_step [] (.fetchOk [] false)).state = [] ∧
    (poll_loop_step [] (.fetchOk [⟨"m", "Yes", 5⟩] false)).invoked = none := by
  decide

/-- Claim C2 (amended): on the very first cycle no diff is computed and the
callback is not invoked even if the fetched snapshot is non-empty; and more
generally, whenever the retained previous snapshot is empty — whether
uninitialized or left by a prior successful poll that returned no
positions — the poller suppresses the diff and the callback, because the
source's `if last_positions:` truthiness test cannot distinguish the two
cases. -/
theorem C2_empty_previous_suppression :
    (∀ input : CycleInput, (poll_loop_step [] input).invoked = none) ∧
    (poll_loop_run [] [.fetchOk [] false, .fetchOk [⟨"m", "Yes", 5⟩] false]).2 =
      [none, none] := by
  constructor
  · intro input
    cases input with
    | fetchFail => rfl
    | fetchOk positions cb => rfl
  · decide

/-- Claim C3: for a received trade event (`event_type = "trade"`), the
whale detector forwards it iff `status = "MATCHED"` and, when a value
threshold is configured, `size * price ≥ min_trade_value`, otherwise
`size ≥ min_trade_size`; the value threshold alone decides when both are
supplied, so size=10, price=0.6 against min_trade_value=5,
min_trade_size=1000 fires. -/
theorem C3_whale_threshold_policy (min_trade_size : ℚ) (min_trade_value : Option ℚ)
    (data : TradeMsg) (htrade : data.event_type = "trade") :
    (whale_filter_callback min_trade_size min_trade_value data = true ↔
      (data.status = "MATCHED" ∧
        match min_trade_value with
        | some v => data.size * data.price ≥ v
        | none => data.size ≥ min_trade_size)) ∧
    whale_filter_callback 1000 (some 5) ⟨"trade", "MATCHED", 10, 3/5⟩ = true := by
  constructor
  · by_cases hst : data.status = "MATCHED"
    · rw [whale_filter_callback, if_pos ⟨htrade, hst⟩]
      cases min_trade_value with
      | none => simp [hst, decide_eq_true_iff]
      | some v => simp [hst, decide_eq_true_iff]
    · rw [whale_filter_callback, if_neg (fun hc => hst hc.2)]
      simp [hst]
  · norm_num [whale_filter_callback]

/-- Witness for C3 at the claim's concrete trade. -/
theorem C3_whale_threshold_policy_witness :
    ((⟨"trade", "MATCHED", 10, 3/5⟩ : TradeMsg).event_type = "trade") ∧
    ((whale_filter_callback 1000 (some 5) ⟨"trade", "MATCHED", 10, 3/5⟩ = true ↔
        ((⟨"trade", "MATCHED", 10, 3/5⟩ : TradeMsg).status = "MATCHED" ∧
          (⟨"trade", "MATCHED", 10, 3/5⟩ : TradeMsg).size *
            (⟨"trade", "MATCHED", 10, 3/5⟩ : TradeMsg).price ≥ 5)) ∧
      whale_filter_callback 1000 (some 5) ⟨"trade", "MATCHED", 10, 3/5⟩ = true) :=
  ⟨rfl, C3_whale_threshold_policy 1000 (some 5) ⟨"trade", "MATCHED", 10, 3/5⟩ rfl⟩

/-- Claim C4: a failed fetch is caught: the cycle produces no callback
invocation and leaves the retained snapshot untouched, the loop proceeds
to the remaining cycles, and (since the only other cycle kind is a
successful fetch) the retained snapshot is only ever overwritten by a
cycle whose fetch succeeded. -/
theorem C4_fetch_failure_isolated :
    (∀ last_positions : Snapshot,
        poll_loop_step last_positions .fetchFail =
          { state := last_positions, invoked := none }) ∧
    (∀ (last_positions : Snapshot) (rest : List CycleInput),
        poll_loop_run last_positions (.fetchFail :: rest) =
          ((poll_loop_run last_positions rest).1,
            none :: (poll_loop_run last_positions rest).2)) := by
  exact ⟨fun _ => rfl, fun _ _ => rfl⟩

/-- Claim C5: when `monitor_market_for_whales` is given market references
and resolving them yields zero asset ids in total, the call raises
(`ValueError`, the spec's ResolutionError) and never reaches
`subscribe_to_markets` — no connection is opened, so no handshake or
subscribe frame is sent. -/
theorem C5_resolution_error (resolve : String → List String)
    (markets : List String) (asset_ids : Option (List String))
    (h : markets.flatMap resolve = []) :
    monitor_market_for_whales resolve (some markets) asset_ids =
      .resolutionError markets ∧
    ∀ ids, monitor_market_for_whales resolve (some markets) asset_ids ≠
      .connectionOpened ids := by
  constructor
  · simp [monitor_market_for_whales, h]
  · intro ids
    simp [monitor_market_for_whales, h]

/-- Witness for C5: one unknown market reference resolving to nothing. -/
theorem C5_resolution_error_witness :
    (["unknown-market"].flatMap (fun _ => ([] : List String)) = []) ∧
    (monitor_market_for_whales (fun _ => []) (some ["unknown-market"]) none =
        .resolutionError ["unknown-market"] ∧
      ∀ ids, monitor_market_for_whales (fun _ => []) (some ["unknown-market"]) none ≠
        .connectionOpened ids) :=
  ⟨rfl, C5_resolution_error (fun _ => []) ["unknown-market"] none rfl⟩

/-- Counterexample for C6: subscribing to asset id "b" on a socket whose
local set is ["a"] emits the frame but does NOT add "b" to the local
subscription set (`asset_ids` is never written by the source), so the
claim's "local subscription set is updated to reflect the change" is
false. -/
theorem C6_counterexample :
    "b" ∉ (subscribe_to_assets { asset_ids := ["a"], sent := [] } ["b"]).asset_ids := by
  decide

/-- Claim C6 (amended): each `subscribe_to_assets` / `unsubscribe_from_assets`
call emits exactly one control frame carrying the given id list and the
operation name over the owning transport, but the registry's local
subscription set (`asset_ids`) is left unchanged — the source never
updates it. -/
theorem C6_subscribe_one_frame (ws : MarketWS) (ids : List String) :
    (subscribe_to_assets ws ids).sent =
      ws.sent ++ [{ assets_ids := ids, operation := "subscribe" }] ∧
    (subscribe_to_assets ws ids).asset_ids = ws.asset_ids ∧
    (unsubscribe_from_assets ws ids).sent =
      ws.sent ++ [{ assets_ids := ids, operation := "unsubscribe" }] ∧
    (unsubscribe_from_assets ws ids).asset_ids = ws.asset_ids :=
  ⟨rfl, rfl, rfl, rfl⟩

/-- Claim C8 (modelled from the spec, which requires a `stop(handle)`
tear-down the source does not implement): stopping a handle twice is a
no-op after the first stop — it does not raise (the operation is total)
and a stopped handle never delivers another event to the consumer
callback. -/
theorem C8_stop_idempotent (h : MonitorHandle) :
    stopHandle (stopHandle h) = stopHandle h ∧
    ∀ fires : Bool, handleDeliver (stopHandle h) fires = false :=
  ⟨rfl, fun _ => rfl⟩

/-- Claim C9: a message whose `event_type` is not "trade" never reaches the
consumer callback, regardless of its status, size or price. -/
theorem C9_non_trade_never_fires (min_trade_size : ℚ) (min_trade_value : Option ℚ)
    (data : TradeMsg) (h : data.event_type ≠ "trade") :
    whale_filter_callback min_trade_size min_trade_value data = false := by
  rw [whale_filter_callback, if_neg (fun hc => h hc.1)]

/-- Witness for C9: a huge MATCHED book-event does not fire. -/
theorem C9_non_trade_never_fires_witness :
    ((⟨"book", "MATCHED", 5000, 1⟩ : TradeMsg).event_type ≠ "trade") ∧
    whale_filter_callback 10 (some 10) ⟨"book", "MATCHED", 5000, 1⟩ = false :=
  ⟨by decide, C9_non_trade_never_fires 10 (some 10) ⟨"book", "MATCHED", 5000, 1⟩ (by decide)⟩

/-- Claim C10: on a cycle whose fetch succeeds, whose diff is non-empty and
whose callback raises, the exception is caught (the step is total and the
loop continues), the callback was invoked with the diff, but the retained
snapshot is NOT replaced; a later cycle fetching the same positions whose
callback completes reports the very same diff and only then replaces the
snapshot. -/
theorem C10_callback_failure_retains_snapshot (last_positions : Snapshot)
    (positions : List Position)
    (hne : last_positions ≠ [])
    (hchg : changes_any (detect_changes last_positions (build_position_map positions)) = true) :
    (poll_loop_step last_positions (.fetchOk positions true)).state = last_positions ∧
    (poll_loop_step last_positions (.fetchOk positions true)).invoked =
      some (detect_changes last_positions (build_position_map positions)) ∧
    (poll_loop_step last_positions (.fetchOk positions false)).invoked =
      some (detect_changes last_positions (build_position_map positions)) ∧
    (poll_loop_step last_positions (.fetchOk positions false)).state =
      build_position_map positions := by
  have hne2 : last_positions.isEmpty = false := by
    cases last_positions with
    | nil => exact absurd rfl hne
    | cons a l => rfl
  refine ⟨?_, ?_, ?_, ?_⟩ <;> simp [poll_loop_step, hne2, hchg]

/-- Witness for C10: previous snapshot holds one position of size 5, fetch
returns the same key with size 7. -/
theorem C10_callback_failure_retains_snapshot_witness :
    ([("m_Yes", (⟨"m", "Yes", 5⟩ : Position))] ≠ ([] : Snapshot)) ∧
    (changes_any (detect_changes [("m_Yes", (⟨"m", "Yes", 5⟩ : Position))]
        (build_position_map [⟨"m", "Yes", 7⟩])) = true) ∧
    ((poll_loop_step [("m_Yes", (⟨"m", "Yes", 5⟩ : Position))]
        (.fetchOk [⟨"m", "Yes", 7⟩] true)).state =
        [("m_Yes", (⟨"m", "Yes", 5⟩ : Position))] ∧
      (poll_loop_step [("m_Yes", (⟨"m", "Yes", 5⟩ : Position))]
        (.fetchOk [⟨"m", "Yes", 7⟩] true)).invoked =
        some (detect_changes [("m_Yes", (⟨"m", "Yes", 5⟩ : Position))]
          (build_position_map [⟨"m", "Yes", 7⟩])) ∧
      (poll_loop_step [("m_Yes", (⟨"m", "Yes", 5⟩ : Position))]
        (.fetchOk [⟨"m", "Yes", 7⟩] false)).invoked =
        some (detect_changes [("m_Yes", (⟨"m", "Yes", 5⟩ : Position))]
          (build_position_map [⟨"m", "Yes", 7⟩])) ∧
      (poll_loop_step [("m_Yes", (⟨"m", "Yes", 5⟩ : Position))]
        (.fetchOk [⟨"m", "Yes", 7⟩] false)).state =
        build_position_map [⟨"m", "Yes", 7⟩]) :=
  ⟨by decide, by decide,
   C10_callback_failure_retains_snapshot [("m_Yes", ⟨"m", "Yes", 5⟩)]
     [⟨"m", "Yes", 7⟩] (by decide) (by decide)⟩
